import Mathlib

/-!
# LineSettingsModel (inspector/models/notation/lines/linesettingsmodel.cpp)

A shallow embedding of the line-settings inspector model.

* C++ `double` values are exact rationals (`ℚ`); nothing below depends on binary
  floating-point error.
* A member `PropertyItem*` is an `Option PropertyItem`: `none` is the null pointer and
  `some it` is the exclusively owned object the pointer refers to.
* A lambda handed to `buildPropertyItem` is a constructor of `Callback`; `Callback.run`
  holds the lambda bodies.  The lambdas capture `this`, so they read the model as it is
  when they fire.  A dereference `m_x->value()` is an `Option.bind` on the member, and a
  callback result `none` is a null-pointer dereference.
* The call `onPropertyValueChanged(pid, v)` a callback ends in is the value
  `some (pid, v)` it returns: the write handed to the repository.
-/

namespace LineSettings

/-! ## Data model -/

/-- The property ids of `Ms::Pid` that the line settings use. -/
inductive Pid
  | LINE_STYLE
  | PLACEMENT
  | LINE_WIDTH
  | DASH_LINE_LEN
  | DASH_GAP_LEN
  | LINE_VISIBLE
  | DIAGONAL
  | BEGIN_TEXT
  | BEGIN_TEXT_OFFSET
  | CONTINUE_TEXT
  | CONTINUE_TEXT_OFFSET
  | END_TEXT
  | END_TEXT_OFFSET
  deriving DecidableEq, Repr

/-- The text roles of a line, `LineSettingsModel::TextType`. -/
inductive TextType
  | BeginingText
  | ContiniousText
  | EndText
  deriving DecidableEq, Repr

/-- A two-axis point, `PointF(x, y)`. -/
structure PointF where
  x : ℚ
  y : ℚ
  deriving DecidableEq, Repr

/-- The values a `QVariant` of this panel holds. -/
inductive QVariant
  | invalid
  | bool (b : Bool)
  | int (i : ℤ)
  | double (d : ℚ)
  | string (s : String)
  | pointF (p : PointF)
  deriving DecidableEq, Repr

/-- The conversion `QVariant::toDouble()`.  Text is converted by `parse` (the number
parser of `QString`, a parameter of the model); a value with no conversion to a number
gives `0.0`. -/
def QVariant.toDouble (parse : String → ℚ) : QVariant → ℚ
  | .invalid => 0
  | .bool b => if b then 1 else 0
  | .int i => (i : ℚ)
  | .double d => d
  | .string s => parse s
  | .pointF _ => 0

/-- The conversion `QVariant::value<PointF>()`: the point held, or the default
constructed point `(0, 0)`. -/
def QVariant.toPointF : QVariant → PointF
  | .pointF p => p
  | _ => ⟨0, 0⟩

/-- The lambdas `createProperties` passes to `buildPropertyItem`, named after the
member the built item is assigned to. -/
inductive Callback
  | lineStyle
  | beginingTextHorizontalOffset
  | beginingTextVerticalOffset
  | continiousTextHorizontalOffset
  | continiousTextVerticalOffset
  | endTextHorizontalOffset
  | endTextVerticalOffset
  deriving DecidableEq, Repr

/-- A property item: the property id it is bound to, its current and default value, and
the callback connected to its change signal (`none`: `buildPropertyItem` was called
without one). -/
structure PropertyItem where
  propertyId : Pid
  value : QVariant
  defaultValue : QVariant
  callback : Option Callback
  deriving DecidableEq, Repr

/-- The sixteen `PropertyItem*` members of `LineSettingsModel`. -/
structure LineSettingsModel where
  m_lineStyle : Option PropertyItem
  m_placement : Option PropertyItem
  m_thickness : Option PropertyItem
  m_dashLineLength : Option PropertyItem
  m_dashGapLength : Option PropertyItem
  m_isLineVisible : Option PropertyItem
  m_isDiagonalLocked : Option PropertyItem
  m_beginingText : Option PropertyItem
  m_beginingTextHorizontalOffset : Option PropertyItem
  m_beginingTextVerticalOffset : Option PropertyItem
  m_continiousText : Option PropertyItem
  m_continiousTextHorizontalOffset : Option PropertyItem
  m_continiousTextVerticalOffset : Option PropertyItem
  m_endText : Option PropertyItem
  m_endTextHorizontalOffset : Option PropertyItem
  m_endTextVerticalOffset : Option PropertyItem
  deriving DecidableEq, Repr

/-- The model before `createProperties` ran: every member is the null pointer. -/
def LineSettingsModel.unset : LineSettingsModel :=
  ⟨none, none, none, none, none, none, none, none,
   none, none, none, none, none, none, none, none⟩

/-! ## createProperties -/

/-- Modelled from the spec: `AbstractInspectorModel::buildPropertyItem` is not part of
this file.  It allocates a `PropertyItem` bound to the given id and attaches the given
callback; the new item has no value yet. -/
def buildPropertyItem (pid : Pid) (callback : Option Callback) : PropertyItem :=
  { propertyId := pid, value := .invalid, defaultValue := .invalid, callback := callback }

/-- The predicate `LineSettingsModel::isTextVisible`: `true` for every role. -/
def isTextVisible (_ : TextType) : Bool := true

/-- The begin-text block of `createProperties`. -/
def createBeginingText (m : LineSettingsModel) : LineSettingsModel :=
  let m := { m with m_beginingText := some (buildPropertyItem .BEGIN_TEXT none) }
  let horizontal := buildPropertyItem .BEGIN_TEXT_OFFSET (some .beginingTextHorizontalOffset)
  let m := { m with m_beginingTextHorizontalOffset := some horizontal }
  let vertical := buildPropertyItem .BEGIN_TEXT_OFFSET (some .beginingTextVerticalOffset)
  { m with m_beginingTextVerticalOffset := some vertical }

/-- The continue-text block of `createProperties`. -/
def createContiniousText (m : LineSettingsModel) : LineSettingsModel :=
  let m := { m with m_continiousText := some (buildPropertyItem .CONTINUE_TEXT none) }
  let horizontal := buildPropertyItem .CONTINUE_TEXT_OFFSET (some .continiousTextHorizontalOffset)
  let m := { m with m_continiousTextHorizontalOffset := some horizontal }
  let vertical := buildPropertyItem .CONTINUE_TEXT_OFFSET (some .continiousTextVerticalOffset)
  { m with m_continiousTextVerticalOffset := some vertical }

/-- The end-text block of `createProperties`. -/
def createEndText (m : LineSettingsModel) : LineSettingsModel :=
  let m := { m with m_endText := some (buildPropertyItem .END_TEXT none) }
  let horizontal := buildPropertyItem .END_TEXT_OFFSET (some .endTextHorizontalOffset)
  let m := { m with m_endTextHorizontalOffset := some horizontal }
  let vertical := buildPropertyItem .END_TEXT_OFFSET (some .endTextVerticalOffset)
  { m with m_endTextVerticalOffset := some vertical }

/-- The method `LineSettingsModel::createProperties`, run on the members `m`, with the
text-visibility predicate it consults as the parameter `textVisible` (the predicate of
this file is `isTextVisible`). -/
def createProperties (textVisible : TextType → Bool) (m : LineSettingsModel) :
    LineSettingsModel :=
  let m := { m with m_lineStyle := some (buildPropertyItem .LINE_STYLE (some .lineStyle)) }
  let m := { m with m_placement := some (buildPropertyItem .PLACEMENT none) }
  let m := { m with m_thickness := some (buildPropertyItem .LINE_WIDTH none) }
  let m := { m with m_dashLineLength := some (buildPropertyItem .DASH_LINE_LEN none) }
  let m := { m with m_dashGapLength := some (buildPropertyItem .DASH_GAP_LEN none) }
  let m := { m with m_isLineVisible := some (buildPropertyItem .LINE_VISIBLE none) }
  let m := { m with m_isDiagonalLocked := some (buildPropertyItem .DIAGONAL none) }
  let m := if textVisible .BeginingText then createBeginingText m else m
  let m := if textVisible .ContiniousText then createContiniousText m else m
  if textVisible .EndText then createEndText m else m

/-- The constructor of `LineSettingsModel`: `createProperties` on the fresh object. -/
def LineSettingsModel.construct (textVisible : TextType → Bool) : LineSettingsModel :=
  createProperties textVisible LineSettingsModel.unset

/-! ## Accessors -/

def LineSettingsModel.thickness (m : LineSettingsModel) := m.m_thickness
def LineSettingsModel.lineStyle (m : LineSettingsModel) := m.m_lineStyle
def LineSettingsModel.dashLineLength (m : LineSettingsModel) := m.m_dashLineLength
def LineSettingsModel.dashGapLength (m : LineSettingsModel) := m.m_dashGapLength
def LineSettingsModel.placement (m : LineSettingsModel) := m.m_placement
def LineSettingsModel.isLineVisible (m : LineSettingsModel) := m.m_isLineVisible
def LineSettingsModel.isDiagonalLocked (m : LineSettingsModel) := m.m_isDiagonalLocked
def LineSettingsModel.beginingText (m : LineSettingsModel) := m.m_beginingText
def LineSettingsModel.beginingTextHorizontalOffset (m : LineSettingsModel) :=
  m.m_beginingTextHorizontalOffset
def LineSettingsModel.beginingTextVerticalOffset (m : LineSettingsModel) :=
  m.m_beginingTextVerticalOffset
def LineSettingsModel.continiousText (m : LineSettingsModel) := m.m_continiousText
def LineSettingsModel.continiousTextHorizontalOffset (m : LineSettingsModel) :=
  m.m_continiousTextHorizontalOffset
def LineSettingsModel.continiousTextVerticalOffset (m : LineSettingsModel) :=
  m.m_continiousTextVerticalOffset
def LineSettingsModel.endText (m : LineSettingsModel) := m.m_endText
def LineSettingsModel.endTextHorizontalOffset (m : LineSettingsModel) :=
  m.m_endTextHorizontalOffset
def LineSettingsModel.endTextVerticalOffset (m : LineSettingsModel) :=
  m.m_endTextVerticalOffset

/-! ## Edit callbacks -/

/-- The bodies of the lambdas of `createProperties`, fired with the property id `pid`
and the new value `newValue` on the model `m`.  The result is the call
`onPropertyValueChanged(pid, value)` the lambda makes, or `none` when it dereferences a
null member.  (`onUpdateLinePropertiesAvailability`, which the line-style lambda calls
afterwards, has an empty body.) -/
def Callback.run (parse : String → ℚ) (m : LineSettingsModel) (pid : Pid)
    (newValue : QVariant) : Callback → Option (Pid × QVariant)
  | .lineStyle => some (pid, newValue)
  | .beginingTextHorizontalOffset =>
    m.m_beginingTextVerticalOffset.bind fun item =>
      some (pid, .pointF ⟨newValue.toDouble parse, item.value.toDouble parse⟩)
  | .beginingTextVerticalOffset =>
    m.m_beginingTextHorizontalOffset.bind fun item =>
      some (pid, .pointF ⟨item.value.toDouble parse, newValue.toDouble parse⟩)
  | .continiousTextHorizontalOffset =>
    m.m_continiousTextVerticalOffset.bind fun item =>
      some (pid, .pointF ⟨newValue.toDouble parse, item.value.toDouble parse⟩)
  | .continiousTextVerticalOffset =>
    m.m_continiousTextHorizontalOffset.bind fun item =>
      some (pid, .pointF ⟨item.value.toDouble parse, newValue.toDouble parse⟩)
  | .endTextHorizontalOffset =>
    m.m_endTextHorizontalOffset.bind fun item =>
      some (pid, .pointF ⟨newValue.toDouble parse, item.value.toDouble parse⟩)
  | .endTextVerticalOffset =>
    m.m_endTextVerticalOffset.bind fun item =>
      some (pid, .pointF ⟨item.value.toDouble parse, newValue.toDouble parse⟩)

/-- The names of the sixteen members. -/
inductive Member
  | m_lineStyle
  | m_placement
  | m_thickness
  | m_dashLineLength
  | m_dashGapLength
  | m_isLineVisible
  | m_isDiagonalLocked
  | m_beginingText
  | m_beginingTextHorizontalOffset
  | m_beginingTextVerticalOffset
  | m_continiousText
  | m_continiousTextHorizontalOffset
  | m_continiousTextVerticalOffset
  | m_endText
  | m_endTextHorizontalOffset
  | m_endTextVerticalOffset
  deriving DecidableEq, Repr

/-- The item a member points to. -/
def LineSettingsModel.get (m : LineSettingsModel) : Member → Option PropertyItem
  | .m_lineStyle => m.m_lineStyle
  | .m_placement => m.m_placement
  | .m_thickness => m.m_thickness
  | .m_dashLineLength => m.m_dashLineLength
  | .m_dashGapLength => m.m_dashGapLength
  | .m_isLineVisible => m.m_isLineVisible
  | .m_isDiagonalLocked => m.m_isDiagonalLocked
  | .m_beginingText => m.m_beginingText
  | .m_beginingTextHorizontalOffset => m.m_beginingTextHorizontalOffset
  | .m_beginingTextVerticalOffset => m.m_beginingTextVerticalOffset
  | .m_continiousText => m.m_continiousText
  | .m_continiousTextHorizontalOffset => m.m_continiousTextHorizontalOffset
  | .m_continiousTextVerticalOffset => m.m_continiousTextVerticalOffset
  | .m_endText => m.m_endText
  | .m_endTextHorizontalOffset => m.m_endTextHorizontalOffset
  | .m_endTextVerticalOffset => m.m_endTextVerticalOffset

/-- The model with the object of one member replaced. -/
def LineSettingsModel.set (m : LineSettingsModel) (item : Option PropertyItem) :
    Member → LineSettingsModel
  | .m_lineStyle => { m with m_lineStyle := item }
  | .m_placement => { m with m_placement := item }
  | .m_thickness => { m with m_thickness := item }
  | .m_dashLineLength => { m with m_dashLineLength := item }
  | .m_dashGapLength => { m with m_dashGapLength := item }
  | .m_isLineVisible => { m with m_isLineVisible := item }
  | .m_isDiagonalLocked => { m with m_isDiagonalLocked := item }
  | .m_beginingText => { m with m_beginingText := item }
  | .m_beginingTextHorizontalOffset => { m with m_beginingTextHorizontalOffset := item }
  | .m_beginingTextVerticalOffset => { m with m_beginingTextVerticalOffset := item }
  | .m_continiousText => { m with m_continiousText := item }
  | .m_continiousTextHorizontalOffset => { m with m_continiousTextHorizontalOffset := item }
  | .m_continiousTextVerticalOffset => { m with m_continiousTextVerticalOffset := item }
  | .m_endText => { m with m_endText := item }
  | .m_endTextHorizontalOffset => { m with m_endTextHorizontalOffset := item }
  | .m_endTextVerticalOffset => { m with m_endTextVerticalOffset := item }

/-- Modelled from the spec: the change signal of `PropertyItem` is not part of this
file.  An edit of the item of member `p` to `newValue` invokes the callback attached to
the item with the id the item is bound to; an item built without a callback forwards the
new value under its id.  The result is `none` when the member is null (no item, nothing
fires) or the callback dereferences a null member. -/
def LineSettingsModel.propertyModified (parse : String → ℚ) (m : LineSettingsModel)
    (p : Member) (newValue : QVariant) : Option (Pid × QVariant) :=
  (m.get p).bind fun item =>
    match item.callback with
    | some callback => callback.run parse m item.propertyId newValue
    | none => some (item.propertyId, newValue)

/-! ## loadProperties -/

/-- The method `LineSettingsModel::onUpdateLinePropertiesAvailability`: an empty body. -/
def onUpdateLinePropertiesAvailability (m : LineSettingsModel) : LineSettingsModel := m

/-- Modelled from the spec: `AbstractInspectorModel::loadPropertyItem` is not part of
this file.  An item that was not created (null) is skipped; for a created item the
current value of its property id is fetched from the repository `repo`, passed through
the formatter when one is given, and becomes the value of the item. -/
def loadPropertyItem (repo : Pid → QVariant) (item : Option PropertyItem)
    (convert : Option (QVariant → QVariant)) : Option PropertyItem :=
  match item with
  | none => none
  | some item =>
    match convert with
    | some format => some { item with value := format (repo item.propertyId) }
    | none => some { item with value := repo item.propertyId }

/-- The method `LineSettingsModel::loadProperties`.  `roundDouble` is
`DataFormatter::roundDouble` and `repo` the value the repository holds for each id. -/
def loadProperties (parse : String → ℚ) (roundDouble : ℚ → ℚ) (repo : Pid → QVariant)
    (m : LineSettingsModel) : LineSettingsModel :=
  let formatDoubleFunc : QVariant → QVariant := fun elementPropertyValue =>
    .double (roundDouble (elementPropertyValue.toDouble parse))
  let formatX : QVariant → QVariant := fun elementPropertyValue =>
    .double (roundDouble elementPropertyValue.toPointF.x)
  let formatY : QVariant → QVariant := fun elementPropertyValue =>
    .double (roundDouble elementPropertyValue.toPointF.y)
  let m := { m with m_lineStyle := loadPropertyItem repo m.m_lineStyle none }
  let m := { m with m_placement := loadPropertyItem repo m.m_placement none }
  let m := { m with m_thickness := loadPropertyItem repo m.m_thickness (some formatDoubleFunc) }
  let m := { m with
    m_dashLineLength := loadPropertyItem repo m.m_dashLineLength (some formatDoubleFunc) }
  let m := { m with
    m_dashGapLength := loadPropertyItem repo m.m_dashGapLength (some formatDoubleFunc) }
  let m := { m with m_isLineVisible := loadPropertyItem repo m.m_isLineVisible none }
  let m := { m with m_isDiagonalLocked := loadPropertyItem repo m.m_isDiagonalLocked none }
  let m := { m with m_beginingText := loadPropertyItem repo m.m_beginingText none }
  let m := { m with m_beginingTextHorizontalOffset :=
    loadPropertyItem repo m.m_beginingTextHorizontalOffset (some formatX) }
  let m := { m with m_beginingTextVerticalOffset :=
    loadPropertyItem repo m.m_beginingTextVerticalOffset (some formatY) }
  let m := { m with m_continiousText := loadPropertyItem repo m.m_continiousText none }
  let m := { m with m_continiousTextHorizontalOffset :=
    loadPropertyItem repo m.m_continiousTextHorizontalOffset (some formatX) }
  let m := { m with m_continiousTextVerticalOffset :=
    loadPropertyItem repo m.m_continiousTextVerticalOffset (some formatY) }
  let m := { m with m_endText := loadPropertyItem repo m.m_endText none }
  let m := { m with m_endTextHorizontalOffset :=
    loadPropertyItem repo m.m_endTextHorizontalOffset (some formatX) }
  let m := { m with m_endTextVerticalOffset :=
    loadPropertyItem repo m.m_endTextVerticalOffset (some formatY) }
  onUpdateLinePropertiesAvailability m

/-! ## resetProperties -/

/-- The list `allProperties` of `resetProperties`, in the order of the source. -/
def allProperties : List Member :=
  [ .m_lineStyle,
    .m_placement,
    .m_thickness,
    .m_dashLineLength,
    .m_dashGapLength,
    .m_isLineVisible,
    .m_isDiagonalLocked,
    .m_beginingText,
    .m_beginingTextHorizontalOffset,
    .m_beginingTextVerticalOffset,
    .m_continiousText,
    .m_continiousTextHorizontalOffset,
    .m_continiousTextVerticalOffset,
    .m_endText,
    .m_endTextHorizontalOffset,
    .m_endTextVerticalOffset ]

/-- One pass of the loop body of `resetProperties`: `if (property) property->resetToDefault()`,
with `PropertyItem::resetToDefault` as the parameter `resetToDefault`. -/
def resetProperty (resetToDefault : PropertyItem → PropertyItem) (m : LineSettingsModel)
    (property : Member) : LineSettingsModel :=
  match m.get property with
  | some item => m.set (some (resetToDefault item)) property
  | none => m

/-- The method `LineSettingsModel::resetProperties`: the loop over `allProperties`. -/
def resetProperties (resetToDefault : PropertyItem → PropertyItem) (m : LineSettingsModel) :
    LineSettingsModel :=
  allProperties.foldl (resetProperty resetToDefault) m

/-- Modelled from the spec: `PropertyItem::resetToDefault` is not part of this file.
It sets the current value of the item to its default value. -/
def PropertyItem.resetToDefault (item : PropertyItem) : PropertyItem :=
  { item with value := item.defaultValue }

/-- Modelled from the spec: `DataFormatter::roundDouble` is not part of this file.  It
rounds to a fixed number `decimals` of decimal places. -/
def DataFormatter.roundDouble (decimals : ℕ) (value : ℚ) : ℚ :=
  (round (value * 10 ^ decimals) : ℤ) / 10 ^ decimals

/-! ## Tables used to state the results -/

/-- The formatter `loadProperties` hands to `loadPropertyItem` for a member: none, the
scalar rounding `formatDoubleFunc`, or the rounded x or y coordinate of a point. -/
inductive Format
  | plain
  | scalar
  | pointX
  | pointY
  deriving DecidableEq, Repr

/-- The formatter of each member, as `loadProperties` assigns them. -/
def Member.format : Member → Format
  | .m_lineStyle => .plain
  | .m_placement => .plain
  | .m_thickness => .scalar
  | .m_dashLineLength => .scalar
  | .m_dashGapLength => .scalar
  | .m_isLineVisible => .plain
  | .m_isDiagonalLocked => .plain
  | .m_beginingText => .plain
  | .m_beginingTextHorizontalOffset => .pointX
  | .m_beginingTextVerticalOffset => .pointY
  | .m_continiousText => .plain
  | .m_continiousTextHorizontalOffset => .pointX
  | .m_continiousTextVerticalOffset => .pointY
  | .m_endText => .plain
  | .m_endTextHorizontalOffset => .pointX
  | .m_endTextVerticalOffset => .pointY

/-- The value an item shows for the repository value `v` under a formatter. -/
def Format.apply (parse : String → ℚ) (roundDouble : ℚ → ℚ) : Format → QVariant → QVariant
  | .plain, v => v
  | .scalar, v => .double (roundDouble (v.toDouble parse))
  | .pointX, v => .double (roundDouble v.toPointF.x)
  | .pointY, v => .double (roundDouble v.toPointF.y)

/-- The member holding the horizontal offset item of a role. -/
def horizontalOffsetMember : TextType → Member
  | .BeginingText => .m_beginingTextHorizontalOffset
  | .ContiniousText => .m_continiousTextHorizontalOffset
  | .EndText => .m_endTextHorizontalOffset

/-- The member holding the vertical offset item of a role. -/
def verticalOffsetMember : TextType → Member
  | .BeginingText => .m_beginingTextVerticalOffset
  | .ContiniousText => .m_continiousTextVerticalOffset
  | .EndText => .m_endTextVerticalOffset

/-- The text-offset property id of a role. -/
def offsetPid : TextType → Pid
  | .BeginingText => .BEGIN_TEXT_OFFSET
  | .ContiniousText => .CONTINUE_TEXT_OFFSET
  | .EndText => .END_TEXT_OFFSET

/-- The text role a member belongs to; the seven line members belong to none. -/
def Member.role : Member → Option TextType
  | .m_beginingText => some .BeginingText
  | .m_beginingTextHorizontalOffset => some .BeginingText
  | .m_beginingTextVerticalOffset => some .BeginingText
  | .m_continiousText => some .ContiniousText
  | .m_continiousTextHorizontalOffset => some .ContiniousText
  | .m_continiousTextVerticalOffset => some .ContiniousText
  | .m_endText => some .EndText
  | .m_endTextHorizontalOffset => some .EndText
  | .m_endTextVerticalOffset => some .EndText
  | _ => none

/-- Modelled from the spec: the write access of `PropertyItem` is not part of this
file.  A user edit stores the new value in the item of member `p`; a null member has no
item to edit. -/
def LineSettingsModel.setValue (m : LineSettingsModel) (p : Member) (newValue : QVariant) :
    LineSettingsModel :=
  match m.get p with
  | some item => m.set (some { item with value := newValue }) p
  | none => m

/-- The id and the callback an item was built with. -/
def PropertyItem.binding (item : PropertyItem) : Pid × Option Callback :=
  (item.propertyId, item.callback)

/-- The states of the model after the constructor has returned: the constructed model,
and what `loadProperties`, `resetProperties` and user edits make of it. -/
inductive Reachable (parse : String → ℚ) (textVisible : TextType → Bool) :
    LineSettingsModel → Prop
  | construct : Reachable parse textVisible (LineSettingsModel.construct textVisible)
  | load (roundDouble : ℚ → ℚ) (repo : Pid → QVariant) {m : LineSettingsModel} :
    Reachable parse textVisible m →
    Reachable parse textVisible (loadProperties parse roundDouble repo m)
  | reset {m : LineSettingsModel} :
    Reachable parse textVisible m →
    Reachable parse textVisible (resetProperties PropertyItem.resetToDefault m)
  | edit (p : Member) (newValue : QVariant) {m : LineSettingsModel} :
    Reachable parse textVisible m →
    Reachable parse textVisible (m.setValue p newValue)

/-! ## The constructed model and concrete models -/

/-- The item `createProperties` builds for a member. -/
def Member.built : Member → PropertyItem
  | .m_lineStyle => buildPropertyItem .LINE_STYLE (some .lineStyle)
  | .m_placement => buildPropertyItem .PLACEMENT none
  | .m_thickness => buildPropertyItem .LINE_WIDTH none
  | .m_dashLineLength => buildPropertyItem .DASH_LINE_LEN none
  | .m_dashGapLength => buildPropertyItem .DASH_GAP_LEN none
  | .m_isLineVisible => buildPropertyItem .LINE_VISIBLE none
  | .m_isDiagonalLocked => buildPropertyItem .DIAGONAL none
  | .m_beginingText => buildPropertyItem .BEGIN_TEXT none
  | .m_beginingTextHorizontalOffset =>
    buildPropertyItem .BEGIN_TEXT_OFFSET (some .beginingTextHorizontalOffset)
  | .m_beginingTextVerticalOffset =>
    buildPropertyItem .BEGIN_TEXT_OFFSET (some .beginingTextVerticalOffset)
  | .m_continiousText => buildPropertyItem .CONTINUE_TEXT none
  | .m_continiousTextHorizontalOffset =>
    buildPropertyItem .CONTINUE_TEXT_OFFSET (some .continiousTextHorizontalOffset)
  | .m_continiousTextVerticalOffset =>
    buildPropertyItem .CONTINUE_TEXT_OFFSET (some .continiousTextVerticalOffset)
  | .m_endText => buildPropertyItem .END_TEXT none
  | .m_endTextHorizontalOffset =>
    buildPropertyItem .END_TEXT_OFFSET (some .endTextHorizontalOffset)
  | .m_endTextVerticalOffset =>
    buildPropertyItem .END_TEXT_OFFSET (some .endTextVerticalOffset)

/-- Whether `createProperties` reaches the assignment of a member: always for the line
members, under the guard of its role for a text member. -/
def Member.created (textVisible : TextType → Bool) (p : Member) : Bool :=
  match p.role with
  | some role => textVisible role
  | none => true

/-- A number parser for the concrete models: no text reads as a number. -/
def sampleParse : String → ℚ := fun _ => 0

/-- A repository for the concrete models: every text offset is the point (1, 2). -/
def sampleRepo : Pid → QVariant
  | .LINE_STYLE => .int 1
  | .PLACEMENT => .int 0
  | .LINE_WIDTH => .double (1 / 8)
  | .DASH_LINE_LEN => .double 5
  | .DASH_GAP_LEN => .double 5
  | .LINE_VISIBLE => .bool true
  | .DIAGONAL => .bool false
  | .BEGIN_TEXT => .string "cresc."
  | .CONTINUE_TEXT => .string ""
  | .END_TEXT => .string ""
  | .BEGIN_TEXT_OFFSET => .pointF ⟨1, 2⟩
  | .CONTINUE_TEXT_OFFSET => .pointF ⟨1, 2⟩
  | .END_TEXT_OFFSET => .pointF ⟨1, 2⟩

/-- The model of this file (every text role visible) after one `loadProperties` from
`sampleRepo`, rounding to two decimals. -/
def sampleModel : LineSettingsModel :=
  loadProperties sampleParse (DataFormatter.roundDouble 2) sampleRepo
    (LineSettingsModel.construct isTextVisible)

/-! ## Lemmas on the members -/

theorem LineSettingsModel.get_set (m : LineSettingsModel) (item : Option PropertyItem)
    (p q : Member) : (m.set item p).get q = if q = p then item else m.get q := by
  cases p <;> cases q <;> rfl

theorem LineSettingsModel.set_get (m : LineSettingsModel) (p : Member) :
    m.set (m.get p) p = m := by
  cases p <;> rfl

theorem resetProperty_eq (f : PropertyItem → PropertyItem) (m : LineSettingsModel)
    (p : Member) : resetProperty f m p = m.set ((m.get p).map f) p := by
  have hset := m.set_get p
  unfold resetProperty
  cases h : m.get p with
  | none => rw [h] at hset; simp [hset]
  | some item => simp

theorem resetProperties_get (f : PropertyItem → PropertyItem) (m : LineSettingsModel)
    (p : Member) : (resetProperties f m).get p = (m.get p).map f := by
  simp only [resetProperties, allProperties, List.foldl_cons, List.foldl_nil, resetProperty_eq]
  cases p <;> rfl

theorem loadPropertyItem_eq (repo : Pid → QVariant) (item : Option PropertyItem)
    (convert : Option (QVariant → QVariant)) :
    loadPropertyItem repo item convert =
      item.map fun it => { it with value := (convert.getD id) (repo it.propertyId) } := by
  cases item <;> cases convert <;> rfl

theorem loadProperties_get (parse : String → ℚ) (roundDouble : ℚ → ℚ) (repo : Pid → QVariant)
    (m : LineSettingsModel) (p : Member) :
    (loadProperties parse roundDouble repo m).get p =
      (m.get p).map fun it =>
        { it with value := p.format.apply parse roundDouble (repo it.propertyId) } := by
  simp only [loadProperties, onUpdateLinePropertiesAvailability, loadPropertyItem_eq]
  cases p <;> rfl

theorem setValue_get (m : LineSettingsModel) (p q : Member) (v : QVariant) :
    (m.setValue p v).get q =
      if q = p then (m.get q).map fun it => { it with value := v } else m.get q := by
  unfold LineSettingsModel.setValue
  cases h : m.get p with
  | none =>
    by_cases hq : q = p
    · subst hq; simp [h]
    · simp [hq]
  | some item =>
    rw [LineSettingsModel.get_set]
    by_cases hq : q = p
    · subst hq; simp [h]
    · simp [hq]

/-! ## The constructed model and its reachable states -/

theorem createProperties_unset_get (textVisible : TextType → Bool) (p : Member) :
    (createProperties textVisible LineSettingsModel.unset).get p =
      if p.created textVisible then some p.built else none := by
  cases p <;> cases h1 : textVisible .BeginingText <;>
    cases h2 : textVisible .ContiniousText <;> cases h3 : textVisible .EndText <;>
    simp [createProperties, createBeginingText, createContiniousText, createEndText,
      LineSettingsModel.unset, LineSettingsModel.get, Member.created, Member.role,
      Member.built, h1, h2, h3]

theorem Reachable.binding_eq {parse : String → ℚ} {textVisible : TextType → Bool}
    {m : LineSettingsModel} (h : Reachable parse textVisible m) (p : Member) :
    (m.get p).map PropertyItem.binding =
      if p.created textVisible then some p.built.binding else none := by
  induction h with
  | construct =>
    rw [LineSettingsModel.construct, createProperties_unset_get]
    split <;> rfl
  | load roundDouble repo _ ih =>
    rw [loadProperties_get, Option.map_map, ← ih]
    rfl
  | reset _ ih =>
    rw [resetProperties_get, Option.map_map, ← ih]
    rfl
  | edit q newValue _ ih =>
    rw [setValue_get, ← ih]
    split
    · rw [Option.map_map]; rfl
    · rfl

theorem Reachable.get_isSome {parse : String → ℚ} {textVisible : TextType → Bool}
    {m : LineSettingsModel} (h : Reachable parse textVisible m) (p : Member) :
    (m.get p).isSome = p.created textVisible := by
  have hb := h.binding_eq p
  cases hc : p.created textVisible <;> cases hg : m.get p <;> simp_all

theorem Reachable.get_eq_some {parse : String → ℚ} {textVisible : TextType → Bool}
    {m : LineSettingsModel} (h : Reachable parse textVisible m) {p : Member}
    (hp : p.created textVisible = true) :
    ∃ item, m.get p = some item ∧ item.propertyId = p.built.propertyId ∧
      item.callback = p.built.callback := by
  have hb := h.binding_eq p
  rw [hp] at hb
  cases hg : m.get p with
  | none => simp [hg] at hb
  | some item =>
    refine ⟨item, rfl, ?_, ?_⟩
    · simp [hg, PropertyItem.binding] at hb; exact hb.1
    · simp [hg, PropertyItem.binding] at hb; exact hb.2

/-! ## Results on createProperties -/

/-- C3: after `createProperties` on a model whose members are unset, the accessors of the
seven line properties return a non-null item, and the accessors of the text, the
horizontal-offset and the vertical-offset item of a role return a non-null item exactly
when the text-visibility predicate holds for that role. -/
theorem createProperties_accessor_nonnull_iff_visible (textVisible : TextType → Bool) :
    let m := createProperties textVisible LineSettingsModel.unset
    m.lineStyle.isSome = true ∧ m.placement.isSome = true ∧ m.thickness.isSome = true ∧
    m.dashLineLength.isSome = true ∧ m.dashGapLength.isSome = true ∧
    m.isLineVisible.isSome = true ∧ m.isDiagonalLocked.isSome = true ∧
    m.beginingText.isSome = textVisible .BeginingText ∧
    m.beginingTextHorizontalOffset.isSome = textVisible .BeginingText ∧
    m.beginingTextVerticalOffset.isSome = textVisible .BeginingText ∧
    m.continiousText.isSome = textVisible .ContiniousText ∧
    m.continiousTextHorizontalOffset.isSome = textVisible .ContiniousText ∧
    m.continiousTextVerticalOffset.isSome = textVisible .ContiniousText ∧
    m.endText.isSome = textVisible .EndText ∧
    m.endTextHorizontalOffset.isSome = textVisible .EndText ∧
    m.endTextVerticalOffset.isSome = textVisible .EndText := by
  intro m
  have key : ∀ p : Member, (m.get p).isSome = p.created textVisible := by
    intro p
    rw [show m.get p = _ from createProperties_unset_get textVisible p]
    cases p.created textVisible <;> rfl
  exact ⟨key .m_lineStyle, key .m_placement, key .m_thickness, key .m_dashLineLength,
    key .m_dashGapLength, key .m_isLineVisible, key .m_isDiagonalLocked,
    key .m_beginingText, key .m_beginingTextHorizontalOffset,
    key .m_beginingTextVerticalOffset, key .m_continiousText,
    key .m_continiousTextHorizontalOffset, key .m_continiousTextVerticalOffset,
    key .m_endText, key .m_endTextHorizontalOffset, key .m_endTextVerticalOffset⟩

/-- C9: `createProperties` binds every item it creates to the id of the schema: the
seven line items to LINE_STYLE, PLACEMENT, LINE_WIDTH, DASH_LINE_LEN, DASH_GAP_LEN,
LINE_VISIBLE and DIAGONAL, the text item of a role to BEGIN_TEXT, CONTINUE_TEXT or
END_TEXT, and both offset items of a role to the single offset id of the role; two
items that belong to different roles (or one to a role and one to none) have different
ids. -/
theorem createProperties_binds_schema_ids (textVisible : TextType → Bool) :
    let m := createProperties textVisible LineSettingsModel.unset
    let idOf : Option PropertyItem → Option Pid := Option.map PropertyItem.propertyId
    let guarded : TextType → Pid → Option Pid := fun role pid =>
      if textVisible role then some pid else none
    idOf m.lineStyle = some .LINE_STYLE ∧ idOf m.placement = some .PLACEMENT ∧
    idOf m.thickness = some .LINE_WIDTH ∧ idOf m.dashLineLength = some .DASH_LINE_LEN ∧
    idOf m.dashGapLength = some .DASH_GAP_LEN ∧ idOf m.isLineVisible = some .LINE_VISIBLE ∧
    idOf m.isDiagonalLocked = some .DIAGONAL ∧
    idOf m.beginingText = guarded .BeginingText .BEGIN_TEXT ∧
    idOf m.beginingTextHorizontalOffset = guarded .BeginingText .BEGIN_TEXT_OFFSET ∧
    idOf m.beginingTextVerticalOffset = guarded .BeginingText .BEGIN_TEXT_OFFSET ∧
    idOf m.continiousText = guarded .ContiniousText .CONTINUE_TEXT ∧
    idOf m.continiousTextHorizontalOffset = guarded .ContiniousText .CONTINUE_TEXT_OFFSET ∧
    idOf m.continiousTextVerticalOffset = guarded .ContiniousText .CONTINUE_TEXT_OFFSET ∧
    idOf m.endText = guarded .EndText .END_TEXT ∧
    idOf m.endTextHorizontalOffset = guarded .EndText .END_TEXT_OFFSET ∧
    idOf m.endTextVerticalOffset = guarded .EndText .END_TEXT_OFFSET ∧
    ∀ (p q : Member) (item other : PropertyItem), m.get p = some item →
      m.get q = some other → p.role ≠ q.role → item.propertyId ≠ other.propertyId := by
  intro m idOf guarded
  have key : ∀ p : Member, idOf (m.get p) =
      if p.created textVisible then some p.built.propertyId else none := by
    intro p
    rw [show m.get p = _ from createProperties_unset_get textVisible p]
    cases p.created textVisible <;> rfl
  refine ⟨key .m_lineStyle, key .m_placement, key .m_thickness, key .m_dashLineLength,
    key .m_dashGapLength, key .m_isLineVisible, key .m_isDiagonalLocked,
    key .m_beginingText, key .m_beginingTextHorizontalOffset,
    key .m_beginingTextVerticalOffset, key .m_continiousText,
    key .m_continiousTextHorizontalOffset, key .m_continiousTextVerticalOffset,
    key .m_endText, key .m_endTextHorizontalOffset, key .m_endTextVerticalOffset, ?_⟩
  intro p q item other hp hq hrole
  have hp2 := key p
  have hq2 := key q
  rw [hp] at hp2
  rw [hq] at hq2
  have hip : item.propertyId = p.built.propertyId := by
    cases hc : p.created textVisible <;> simp [idOf, hc] at hp2
    exact hp2
  have hiq : other.propertyId = q.built.propertyId := by
    cases hc : q.created textVisible <;> simp [idOf, hc] at hq2
    exact hq2
  rw [hip, hiq]
  revert hrole
  cases p <;> cases q <;> simp [Member.role, Member.built, buildPropertyItem]

/-! ## Results on resetProperties and loadProperties -/

/-- C4: for every assignment of null and non-null items to the sixteen members and
whatever `resetToDefault` does to an item, `resetProperties` leaves each member that is
null as it is and replaces the item of each non-null member by the result of one call of
`resetToDefault` on it; these are all the members, so nothing else changes.  With the
reset of the spec the item gets its default value. -/
theorem resetProperties_resets_each_nonnull_once (resetToDefault : PropertyItem → PropertyItem)
    (m : LineSettingsModel) (p : Member) :
    ((resetProperties resetToDefault m).get p =
      match m.get p with
      | some item => some (resetToDefault item)
      | none => none) ∧
    ((resetProperties PropertyItem.resetToDefault m).get p =
      match m.get p with
      | some item => some { item with value := item.defaultValue }
      | none => none) := by
  constructor
  · rw [resetProperties_get]; cases m.get p <;> rfl
  · rw [resetProperties_get]; cases m.get p <;> rfl

/-- C5: for every assignment of null and non-null items to the sixteen members,
`loadProperties` returns a model (it is a total function): each null member stays null
and each non-null item gets the value the repository holds for its id, passed through
the formatter of the member. -/
theorem loadProperties_skips_null_loads_nonnull (parse : String → ℚ) (roundDouble : ℚ → ℚ)
    (repo : Pid → QVariant) (m : LineSettingsModel) (p : Member) :
    (loadProperties parse roundDouble repo m).get p =
      match m.get p with
      | some item =>
        some { item with value := p.format.apply parse roundDouble (repo item.propertyId) }
      | none => none := by
  rw [loadProperties_get]; cases m.get p <;> rfl

/-- C10: in every state reachable after the constructor has returned and for every
text-visibility predicate, an edit callback that can fire (the item of its member
exists) dereferences no null member: it produces its write. -/
theorem edit_callback_dereferences_no_null (parse : String → ℚ)
    (textVisible : TextType → Bool) (m : LineSettingsModel)
    (h : Reachable parse textVisible m) (p : Member) (newValue : QVariant)
    (hp : (m.get p).isSome = true) :
    (m.propertyModified parse p newValue).isSome = true := by
  have hc : p.created textVisible = true := by rw [← h.get_isSome]; exact hp
  obtain ⟨item, hget, -, hcb⟩ := h.get_eq_some hc
  have sibling : ∀ q : Member, q.role = p.role → ∃ other, m.get q = some other := by
    intro q hq
    have hcq : q.created textVisible = true := by
      simpa [Member.created, hq] using hc
    obtain ⟨other, ho, -⟩ := h.get_eq_some hcq
    exact ⟨other, ho⟩
  cases p
  case m_beginingTextHorizontalOffset =>
    obtain ⟨other, ho⟩ := sibling .m_beginingTextVerticalOffset rfl
    simp [LineSettingsModel.get] at ho
    simp [LineSettingsModel.propertyModified, hget, hcb, Member.built, buildPropertyItem,
      Callback.run, ho]
  case m_beginingTextVerticalOffset =>
    obtain ⟨other, ho⟩ := sibling .m_beginingTextHorizontalOffset rfl
    simp [LineSettingsModel.get] at ho
    simp [LineSettingsModel.propertyModified, hget, hcb, Member.built, buildPropertyItem,
      Callback.run, ho]
  case m_continiousTextHorizontalOffset =>
    obtain ⟨other, ho⟩ := sibling .m_continiousTextVerticalOffset rfl
    simp [LineSettingsModel.get] at ho
    simp [LineSettingsModel.propertyModified, hget, hcb, Member.built, buildPropertyItem,
      Callback.run, ho]
  case m_continiousTextVerticalOffset =>
    obtain ⟨other, ho⟩ := sibling .m_continiousTextHorizontalOffset rfl
    simp [LineSettingsModel.get] at ho
    simp [LineSettingsModel.propertyModified, hget, hcb, Member.built, buildPropertyItem,
      Callback.run, ho]
  case m_endTextHorizontalOffset =>
    obtain ⟨other, ho⟩ := sibling .m_endTextHorizontalOffset rfl
    simp [LineSettingsModel.get] at ho
    simp [LineSettingsModel.propertyModified, hget, hcb, Member.built, buildPropertyItem,
      Callback.run, ho]
  case m_endTextVerticalOffset =>
    obtain ⟨other, ho⟩ := sibling .m_endTextVerticalOffset rfl
    simp [LineSettingsModel.get] at ho
    simp [LineSettingsModel.propertyModified, hget, hcb, Member.built, buildPropertyItem,
      Callback.run, ho]
  all_goals
    simp [LineSettingsModel.propertyModified, hget, hcb, Member.built, buildPropertyItem,
      Callback.run]

theorem DataFormatter.roundDouble_intCast (decimals : ℕ) (n : ℤ) :
    DataFormatter.roundDouble decimals (n : ℚ) = n := by
  unfold DataFormatter.roundDouble
  have h10 : (10 : ℚ) ^ decimals ≠ 0 := pow_ne_zero _ (by norm_num)
  have hcast : (n : ℚ) * 10 ^ decimals = ((n * 10 ^ decimals : ℤ) : ℚ) := by push_cast; ring
  rw [hcast, round_intCast]
  push_cast
  field_simp

theorem DataFormatter.roundDouble_idem (decimals : ℕ) (value : ℚ) :
    DataFormatter.roundDouble decimals (DataFormatter.roundDouble decimals value) =
      DataFormatter.roundDouble decimals value := by
  unfold DataFormatter.roundDouble
  have h10 : (10 : ℚ) ^ decimals ≠ 0 := pow_ne_zero _ (by norm_num)
  rw [div_mul_cancel₀ _ h10, round_intCast]

theorem sampleModel_endTextHorizontalOffset :
    sampleModel.m_endTextHorizontalOffset =
      some ⟨.END_TEXT_OFFSET, .double 1, .invalid, some .endTextHorizontalOffset⟩ := by
  have h := DataFormatter.roundDouble_intCast 2 1
  simp only [Int.cast_one] at h
  simp [sampleModel, loadProperties, loadPropertyItem, LineSettingsModel.construct,
    createProperties, createEndText, createBeginingText, createContiniousText,
    isTextVisible, buildPropertyItem, onUpdateLinePropertiesAvailability, sampleRepo,
    QVariant.toPointF, h]

theorem sampleModel_endTextVerticalOffset :
    sampleModel.m_endTextVerticalOffset =
      some ⟨.END_TEXT_OFFSET, .double 2, .invalid, some .endTextVerticalOffset⟩ := by
  have h := DataFormatter.roundDouble_intCast 2 2
  simp only [Int.cast_ofNat] at h
  simp [sampleModel, loadProperties, loadPropertyItem, LineSettingsModel.construct,
    createProperties, createEndText, createBeginingText, createContiniousText,
    isTextVisible, buildPropertyItem, onUpdateLinePropertiesAvailability, sampleRepo,
    QVariant.toPointF, h]

/-! ## Results on the offset callbacks -/

/-- For the begin and the continue role, in every reachable state where the role is
visible, an edit of the horizontal offset writes the point of the new value and the
current vertical offset, and an edit of the vertical offset writes the point of the
current horizontal offset and the new value, under the offset id of the role. -/
theorem offset_edit_keeps_sibling_axis (parse : String → ℚ) (textVisible : TextType → Bool)
    (m : LineSettingsModel) (h : Reachable parse textVisible m) (role : TextType)
    (hrole : role ≠ .EndText) (hvisible : textVisible role = true) (newValue : QVariant) :
    ∃ horizontal vertical,
      m.get (horizontalOffsetMember role) = some horizontal ∧
      m.get (verticalOffsetMember role) = some vertical ∧
      m.propertyModified parse (horizontalOffsetMember role) newValue =
        some (offsetPid role,
          .pointF ⟨newValue.toDouble parse, vertical.value.toDouble parse⟩) ∧
      m.propertyModified parse (verticalOffsetMember role) newValue =
        some (offsetPid role,
          .pointF ⟨horizontal.value.toDouble parse, newValue.toDouble parse⟩) := by
  have hch : (horizontalOffsetMember role).created textVisible = true := by
    cases role <;> simpa [horizontalOffsetMember, Member.created, Member.role] using hvisible
  have hcv : (verticalOffsetMember role).created textVisible = true := by
    cases role <;> simpa [verticalOffsetMember, Member.created, Member.role] using hvisible
  obtain ⟨horizontal, hh, hhid, hhcb⟩ := h.get_eq_some hch
  obtain ⟨vertical, hv, hvid, hvcb⟩ := h.get_eq_some hcv
  refine ⟨horizontal, vertical, hh, hv, ?_, ?_⟩
  · cases role
    case EndText => exact absurd rfl hrole
    all_goals
      simp only [horizontalOffsetMember, verticalOffsetMember, LineSettingsModel.get] at hh hv
      simp [LineSettingsModel.propertyModified, horizontalOffsetMember, LineSettingsModel.get,
        hh, hv, hhid, hhcb, Member.built, buildPropertyItem, Callback.run, offsetPid]
  · cases role
    case EndText => exact absurd rfl hrole
    all_goals
      simp only [horizontalOffsetMember, verticalOffsetMember, LineSettingsModel.get] at hh hv
      simp [LineSettingsModel.propertyModified, verticalOffsetMember, LineSettingsModel.get,
        hh, hv, hvid, hvcb, Member.built, buildPropertyItem, Callback.run, offsetPid]

/-- For the end role, in every reachable state where the role is visible, each offset
callback reads the value of its own item where the callbacks of the other roles read the
sibling item. -/
theorem endText_offset_edit_reads_own_item (parse : String → ℚ)
    (textVisible : TextType → Bool) (m : LineSettingsModel)
    (h : Reachable parse textVisible m) (hvisible : textVisible .EndText = true)
    (newValue : QVariant) :
    ∃ horizontal vertical,
      m.get .m_endTextHorizontalOffset = some horizontal ∧
      m.get .m_endTextVerticalOffset = some vertical ∧
      m.propertyModified parse .m_endTextHorizontalOffset newValue =
        some (.END_TEXT_OFFSET,
          .pointF ⟨newValue.toDouble parse, horizontal.value.toDouble parse⟩) ∧
      m.propertyModified parse .m_endTextVerticalOffset newValue =
        some (.END_TEXT_OFFSET,
          .pointF ⟨vertical.value.toDouble parse, newValue.toDouble parse⟩) := by
  have hch : Member.created textVisible .m_endTextHorizontalOffset = true := by
    simpa [Member.created, Member.role] using hvisible
  have hcv : Member.created textVisible .m_endTextVerticalOffset = true := by
    simpa [Member.created, Member.role] using hvisible
  obtain ⟨horizontal, hh, hhid, hhcb⟩ := h.get_eq_some hch
  obtain ⟨vertical, hv, hvid, hvcb⟩ := h.get_eq_some hcv
  refine ⟨horizontal, vertical, hh, hv, ?_, ?_⟩
  · simp only [LineSettingsModel.get] at hh hv
    simp [LineSettingsModel.propertyModified, LineSettingsModel.get,
      hh, hv, hhid, hhcb, Member.built, buildPropertyItem, Callback.run]
  · simp only [LineSettingsModel.get] at hh hv
    simp [LineSettingsModel.propertyModified, LineSettingsModel.get,
      hh, hv, hvid, hvcb, Member.built, buildPropertyItem, Callback.run]

/-- C1, at the end role: in `sampleModel` the end-text offsets loaded from the stored
point (1, 2) are 1 (horizontal) and 2 (vertical).  An edit of the horizontal offset to 5
writes the point (5, 1), made of the new value and the old horizontal value, and not
(5, 2); if the item already holds the new value when the callback fires, the write is
(5, 5).  The vertical offset 2 is lost either way. -/
theorem endTextHorizontalOffset_edit_loses_vertical :
    sampleModel.endTextHorizontalOffset.map PropertyItem.value = some (.double 1) ∧
    sampleModel.endTextVerticalOffset.map PropertyItem.value = some (.double 2) ∧
    sampleModel.propertyModified sampleParse .m_endTextHorizontalOffset (.double 5) =
      some (.END_TEXT_OFFSET, .pointF ⟨5, 1⟩) ∧
    sampleModel.propertyModified sampleParse .m_endTextHorizontalOffset (.double 5) ≠
      some (.END_TEXT_OFFSET, .pointF ⟨5, 2⟩) ∧
    (sampleModel.setValue .m_endTextHorizontalOffset (.double 5)).propertyModified
      sampleParse .m_endTextHorizontalOffset (.double 5) =
      some (.END_TEXT_OFFSET, .pointF ⟨5, 5⟩) := by
  simp [LineSettingsModel.endTextHorizontalOffset, LineSettingsModel.endTextVerticalOffset,
    sampleModel_endTextHorizontalOffset, sampleModel_endTextVerticalOffset,
    LineSettingsModel.propertyModified, LineSettingsModel.get, LineSettingsModel.set,
    LineSettingsModel.setValue, Callback.run, QVariant.toDouble]

/-- C2, at the end role: in `sampleModel` the end-text offsets loaded from the stored
point (1, 2) are 1 (horizontal) and 2 (vertical).  An edit of the vertical offset to 5
writes the point (2, 5), made of the old vertical value and the new value, and not
(1, 5); if the item already holds the new value when the callback fires, the write is
(5, 5).  The horizontal offset 1 is lost either way. -/
theorem endTextVerticalOffset_edit_loses_horizontal :
    sampleModel.endTextHorizontalOffset.map PropertyItem.value = some (.double 1) ∧
    sampleModel.endTextVerticalOffset.map PropertyItem.value = some (.double 2) ∧
    sampleModel.propertyModified sampleParse .m_endTextVerticalOffset (.double 5) =
      some (.END_TEXT_OFFSET, .pointF ⟨2, 5⟩) ∧
    sampleModel.propertyModified sampleParse .m_endTextVerticalOffset (.double 5) ≠
      some (.END_TEXT_OFFSET, .pointF ⟨1, 5⟩) ∧
    (sampleModel.setValue .m_endTextVerticalOffset (.double 5)).propertyModified
      sampleParse .m_endTextVerticalOffset (.double 5) =
      some (.END_TEXT_OFFSET, .pointF ⟨5, 5⟩) := by
  simp [LineSettingsModel.endTextHorizontalOffset, LineSettingsModel.endTextVerticalOffset,
    sampleModel_endTextHorizontalOffset, sampleModel_endTextVerticalOffset,
    LineSettingsModel.propertyModified, LineSettingsModel.get, LineSettingsModel.set,
    LineSettingsModel.setValue, Callback.run, QVariant.toDouble]

/-- Witness of C10: the model of this file after a load; the end-text horizontal offset
item exists and its callback produces a write. -/
theorem edit_callback_dereferences_no_null_witness :
    Reachable sampleParse isTextVisible sampleModel ∧
    (sampleModel.get .m_endTextHorizontalOffset).isSome = true ∧
    (sampleModel.propertyModified sampleParse .m_endTextHorizontalOffset
      (.double 5)).isSome = true :=
  have hreach : Reachable sampleParse isTextVisible sampleModel :=
    Reachable.load (DataFormatter.roundDouble 2) sampleRepo Reachable.construct
  have hsome : (sampleModel.get .m_endTextHorizontalOffset).isSome = true := by
    simp [LineSettingsModel.get, sampleModel_endTextHorizontalOffset]
  ⟨hreach, hsome,
    edit_callback_dereferences_no_null sampleParse isTextVisible sampleModel hreach
      .m_endTextHorizontalOffset (.double 5) hsome⟩

/-! ## Results on the displayed values -/

/-- C7: in every reachable state, for every visible role and every point (x, y) the
repository stores under the offset id of the role, after `loadProperties` the horizontal
offset item of the role shows the rounded x and the vertical offset item the rounded y. -/
theorem loadProperties_decomposes_offset (parse : String → ℚ) (roundDouble : ℚ → ℚ)
    (repo : Pid → QVariant) (textVisible : TextType → Bool) (m : LineSettingsModel)
    (h : Reachable parse textVisible m) (role : TextType) (x y : ℚ)
    (hvisible : textVisible role = true) (hrepo : repo (offsetPid role) = .pointF ⟨x, y⟩) :
    ((loadProperties parse roundDouble repo m).get (horizontalOffsetMember role)).map
        PropertyItem.value = some (.double (roundDouble x)) ∧
    ((loadProperties parse roundDouble repo m).get (verticalOffsetMember role)).map
        PropertyItem.value = some (.double (roundDouble y)) := by
  have hch : (horizontalOffsetMember role).created textVisible = true := by
    cases role <;> simpa [horizontalOffsetMember, Member.created, Member.role] using hvisible
  have hcv : (verticalOffsetMember role).created textVisible = true := by
    cases role <;> simpa [verticalOffsetMember, Member.created, Member.role] using hvisible
  obtain ⟨horizontal, hh, hhid, -⟩ := h.get_eq_some hch
  obtain ⟨vertical, hv, hvid, -⟩ := h.get_eq_some hcv
  have hhpid : horizontal.propertyId = offsetPid role := by
    rw [hhid]; cases role <;> rfl
  have hvpid : vertical.propertyId = offsetPid role := by
    rw [hvid]; cases role <;> rfl
  constructor
  · rw [loadProperties_get, hh]
    cases role <;>
      simp [horizontalOffsetMember, Member.format, Format.apply, hhpid, hrepo,
        QVariant.toPointF]
  · rw [loadProperties_get, hv]
    cases role <;>
      simp [verticalOffsetMember, Member.format, Format.apply, hvpid, hrepo,
        QVariant.toPointF]

/-- Witness of C7: the begin role of the model of this file, with the stored point
(1, 2). -/
theorem loadProperties_decomposes_offset_witness :
    Reachable sampleParse isTextVisible (LineSettingsModel.construct isTextVisible) ∧
    isTextVisible .BeginingText = true ∧
    sampleRepo (offsetPid .BeginingText) = .pointF ⟨1, 2⟩ ∧
    ((loadProperties sampleParse (DataFormatter.roundDouble 2) sampleRepo
        (LineSettingsModel.construct isTextVisible)).get
        (horizontalOffsetMember .BeginingText)).map PropertyItem.value =
      some (.double (DataFormatter.roundDouble 2 1)) ∧
    ((loadProperties sampleParse (DataFormatter.roundDouble 2) sampleRepo
        (LineSettingsModel.construct isTextVisible)).get
        (verticalOffsetMember .BeginingText)).map PropertyItem.value =
      some (.double (DataFormatter.roundDouble 2 2)) :=
  ⟨Reachable.construct, rfl, rfl,
    loadProperties_decomposes_offset sampleParse (DataFormatter.roundDouble 2) sampleRepo
      isTextVisible (LineSettingsModel.construct isTextVisible) Reachable.construct
      .BeginingText 1 2 rfl rfl⟩

/-- C8: with the rounding formatter of any precision, the value `loadProperties` gives a
non-null thickness, dash-length or dash-gap item is the rounded number of the repository
value, and the value it gives a non-null horizontal (vertical) offset item is the rounded
x (y) coordinate of the repository point; rounding a rounded number returns it; and when
a second load finds in the repository the number the item shows, the item shows the same
number again. -/
theorem loadProperties_rounds_numeric_and_is_stable (parse : String → ℚ) (decimals : ℕ)
    (repo : Pid → QVariant) (m : LineSettingsModel) (p : Member) (item : PropertyItem)
    (hget : m.get p = some item)
    (hnumeric : p ∈ [Member.m_thickness, .m_dashLineLength, .m_dashGapLength,
      .m_beginingTextHorizontalOffset, .m_beginingTextVerticalOffset,
      .m_continiousTextHorizontalOffset, .m_continiousTextVerticalOffset,
      .m_endTextHorizontalOffset, .m_endTextVerticalOffset]) :
    let roundDouble := DataFormatter.roundDouble decimals
    let shown : LineSettingsModel → Option QVariant := fun model =>
      (model.get p).map PropertyItem.value
    let reading : QVariant → ℚ := fun stored =>
      if p ∈ [Member.m_thickness, .m_dashLineLength, .m_dashGapLength] then
        stored.toDouble parse
      else if p ∈ [Member.m_beginingTextHorizontalOffset, .m_continiousTextHorizontalOffset,
          .m_endTextHorizontalOffset] then
        stored.toPointF.x
      else
        stored.toPointF.y
    let loaded := loadProperties parse roundDouble repo m
    shown loaded = some (.double (roundDouble (reading (repo item.propertyId)))) ∧
    (∀ value : ℚ, roundDouble (roundDouble value) = roundDouble value) ∧
    (∀ (repo2 : Pid → QVariant) (number : ℚ),
      shown loaded = some (.double number) → reading (repo2 item.propertyId) = number →
      shown (loadProperties parse roundDouble repo2 loaded) = some (.double number)) := by
  intro roundDouble shown reading loaded
  have hloaded : ∀ (source : Pid → QVariant) (model : LineSettingsModel)
      (it : PropertyItem), model.get p = some it →
      shown (loadProperties parse roundDouble source model) =
        some (.double (roundDouble (reading (source it.propertyId)))) := by
    intro source model it hit
    simp only [shown, loadProperties_get, hit, Option.map_some']
    revert hnumeric
    cases p <;> simp [reading, Member.format, Format.apply]
  refine ⟨hloaded repo m item hget, DataFormatter.roundDouble_idem decimals, ?_⟩
  intro repo2 number hshown hread
  have hfirst := hloaded repo m item hget
  have hitem : loaded.get p =
      some { item with value := p.format.apply parse roundDouble (repo item.propertyId) } := by
    simp only [loaded, loadProperties_get, hget, Option.map_some']
  have hsecond := hloaded repo2 loaded _ hitem
  rw [hfirst] at hshown
  have hnumber : roundDouble (reading (repo item.propertyId)) = number := by
    simpa using hshown
  rw [hsecond]
  simp only [hread]
  rw [← hnumber]
  simp only [roundDouble, DataFormatter.roundDouble_idem]

/-- Witness of C8: the thickness item of the model of this file, with the stored width
1/8 and two decimals. -/
theorem loadProperties_rounds_numeric_and_is_stable_witness :
    (LineSettingsModel.construct isTextVisible).get .m_thickness =
      some (buildPropertyItem .LINE_WIDTH none) ∧
    ((loadProperties sampleParse (DataFormatter.roundDouble 2) sampleRepo
        (LineSettingsModel.construct isTextVisible)).get .m_thickness).map
        PropertyItem.value = some (.double (DataFormatter.roundDouble 2 (1 / 8))) ∧
    DataFormatter.roundDouble 2 (1 / 8) = 13 / 100 := by
  have hget : (LineSettingsModel.construct isTextVisible).get .m_thickness =
      some (buildPropertyItem .LINE_WIDTH none) := rfl
  have h := (loadProperties_rounds_numeric_and_is_stable sampleParse 2 sampleRepo
    (LineSettingsModel.construct isTextVisible) .m_thickness
    (buildPropertyItem .LINE_WIDTH none) hget (by decide)).1
  refine ⟨hget, ?_, ?_⟩
  · simpa [buildPropertyItem, sampleRepo, QVariant.toDouble] using h
  · simp [DataFormatter.roundDouble, round_eq]
    norm_num

end LineSettings
